import Mathlib

/-!
Shallow embedding of `visualize.py` (compare-vocabulary).

Python floats are modelled as rationals (`ℚ`); every arithmetic expression
in the source stays exact at the inputs the claims quantify over.
Python exceptions (`ValueError` from `min`/`max` on an empty sequence,
`ZeroDivisionError` from `/`, `KeyError` from a dict lookup) are modelled
by `Option`: `none` is the raised-exception outcome.
-/

namespace Visualize

/-- Python namedtuple `Pos` with fields `tag` and `name`. -/
structure Pos where
  tag : String
  name : String
deriving DecidableEq, Repr

/-- Python namedtuple `Color` with fields `hex` and `name`. -/
structure Color where
  hex : String
  name : String
deriving DecidableEq, Repr

/-- The module-level `COLOR` dict of visualize.py (lines 19-37), as an
insertion-ordered association list, exactly the 17 entries of the source. -/
def COLOR : List (Pos × Color) := [
  (⟨"ADJ", "Adjective"⟩, ⟨"#4E8975", "seagreen"⟩),
  (⟨"ADP", "Adposition"⟩, ⟨"#A52A2A", "brown"⟩),
  (⟨"ADV", "Adverb"⟩, ⟨"#32CD32", "limegreen"⟩),
  (⟨"AUX", "Auxiliary verb"⟩, ⟨"#0000FF", "blue"⟩),
  (⟨"CONJ", "Coordinating conjunction"⟩, ⟨"#ff4500", "orangered"⟩),
  (⟨"DET", "Determiner"⟩, ⟨"#c0c0c0", "silver"⟩),
  (⟨"INTJ", "Interjection"⟩, ⟨"#493D26", "mocha"⟩),
  (⟨"NOUN", "Noun"⟩, ⟨"#FFA500", "orange"⟩),
  (⟨"NUM", "Numeral"⟩, ⟨"#6698FF", "skyblue"⟩),
  (⟨"PART", "Particle"⟩, ⟨"#FF00FF", "magenta"⟩),
  (⟨"PRON", "Pronoun"⟩, ⟨"#FF0000", "red"⟩),
  (⟨"PROPN", "Proper noun"⟩, ⟨"#8D38C9", "violet"⟩),
  (⟨"PUNCT", "Punctuation"⟩, ⟨"#008080", "teal"⟩),
  (⟨"SCONJ", "Subordinating conjunction"⟩, ⟨"#EDDA74", "goldenrod"⟩),
  (⟨"SYM", "Symbol"⟩, ⟨"#808000", "olive"⟩),
  (⟨"VERB", "Verb"⟩, ⟨"#800080", "purple"⟩),
  (⟨"X", "Other"⟩, ⟨"#000000", "black"⟩)
]

/-- One row of the HTML table emitted by `color_key()` (lines 39-65): for each
`(pos, color)` of `COLOR` the source emits a `<tr>` whose three cells carry
`pos.tag`, `pos.name` and `color.name`, all styled with `color.hex`.  The
markup text around these four values is presentation only. -/
structure KeyRow where
  tag : String
  name : String
  colorName : String
  hex : String
deriving DecidableEq, Repr

/-- The rows of the table generated by `color_key()` (lines 50-63): one row
per entry of `COLOR`, in table order.  `color_key` takes no argument and
reads nothing but the static `COLOR` table. -/
def color_key : List KeyRow :=
  COLOR.map (fun pc => ⟨pc.1.tag, pc.1.name, pc.2.name, pc.2.hex⟩)

/-- The `rescale(range1, range2)` function (lines 67-75).
`min(range)` / `max(range)` raise `ValueError` on an empty collection: if any
of the four extrema does not exist the construction is `none`.  The returned
closure `resize` divides by `max1 - min1`; Python raises `ZeroDivisionError`
exactly when that denominator is zero, modelled by the `none` branch of the
inner function.  Otherwise the value is the expression of the source,
`(((value - min1) * (max2 - min2)) / (max1 - min1)) + min2`. -/
def rescale (range1 range2 : List ℚ) : Option (ℚ → Option ℚ) :=
  match range1.min?, range1.max?, range2.min?, range2.max? with
  | some min1, some max1, some min2, some max2 =>
    some (fun value =>
      if max1 - min1 = 0 then none
      else some ((((value - min1) * (max2 - min2)) / (max1 - min1)) + min2))
  | _, _, _, _ => none

/-- The fixed target range `range(75, 351)` of visualize.py line 83: the
integers 75, 76, ..., 350, as rationals. -/
def fontRange : List ℚ := (List.range' 75 (351 - 75)).map (fun n : ℕ => (n : ℚ))

/-- A term of the frequency distribution: the source accesses `t.lemma` and
`t.pos` on each key of `fd`.  The field `lemma` of the source is spelled
`lemma'` here because `lemma` is a keyword. -/
structure Term where
  lemma' : String
  pos : String
deriving DecidableEq, Repr

/-- The data interpolated into one `<font>` element of `visualize` (lines
85-91): `color[t.pos]`, `t.lemma`, `t.pos`, the frequency `f` and
`font_size(f)`.  The markup text around these values is presentation only. -/
structure Descriptor where
  color : String
  lemma' : String
  pos : String
  freq : ℚ
  size : ℚ
deriving DecidableEq, Repr

/-- The dict comprehension `color = {pos.tag: color.hex for pos, color in
COLOR.items()}` of visualize.py line 81, as an association list. -/
def colorDict : List (String × String) := COLOR.map (fun pc => (pc.1.tag, pc.2.hex))

/-- The generator of visualize.py lines 84-92: one `<font>` element per
`(t, f)` of the (filtered) distribution, in iteration order.  A missing key
in `color` raises `KeyError` and a zero source width makes `font_size`
raise `ZeroDivisionError`; either aborts the whole comprehension (`none`). -/
def renderTerms (font_size : ℚ → Option ℚ) : List (Term × ℚ) → Option (List Descriptor)
  | [] => some []
  | (t, f) :: rest =>
    match colorDict.lookup t.pos, font_size f, renderTerms font_size rest with
    | some c, some s, some ds => some (⟨c, t.lemma', t.pos, f, s⟩ :: ds)
    | _, _, _ => none

/-- The filter block of `visualize` (lines 79-80): `if pos_tags is not None:
fd = {t: f for t, f in fd.items() if t.pos in pos_tags}`.  Note the guard of
the source is `is not None`: an empty but non-None whitelist still filters. -/
def filtered (fd : List (Term × ℚ)) (pos_tags : Option (List String)) :
    List (Term × ℚ) :=
  match pos_tags with
  | none => fd
  | some tags => fd.filter (fun tf => tags.contains tf.1.pos)

/-- The `visualize(fd, pos_tags=None)` function (lines 77-93):
filter, sort the frequency values, build `font_size = rescale(frequencies,
range(75, 351))`, then emit one element per surviving term.  Any raised
exception in that pipeline is the `none` outcome. -/
def visualize (fd : List (Term × ℚ)) (pos_tags : Option (List String)) :
    Option (List Descriptor) :=
  let fd1 := filtered fd pos_tags
  let frequencies := (fd1.map Prod.snd).mergeSort (fun a b => decide (a ≤ b))
  match rescale frequencies fontRange with
  | none => none
  | some font_size => renderTerms font_size fd1

/-- The 17 POS tags of the closed category set (spec Glossary; they are
exactly the tags of the `COLOR` table). -/
def closedTags : List String :=
  ["ADJ", "ADP", "ADV", "AUX", "CONJ", "DET", "INTJ", "NOUN", "NUM",
   "PART", "PRON", "PROPN", "PUNCT", "SCONJ", "SYM", "VERB", "X"]

/-- The concrete distribution of spec §8: run/VERB 10, dog/NOUN 2,
quickly/ADV 2. -/
def dist5 : List (Term × ℚ) :=
  [(⟨"run", "VERB"⟩, 10), (⟨"dog", "NOUN"⟩, 2), (⟨"quickly", "ADV"⟩, 2)]

section Helpers

lemma mem_fontRange (x : ℚ) : x ∈ fontRange ↔ ∃ n : ℕ, 75 ≤ n ∧ n < 351 ∧ x = (n : ℚ) := by
  unfold fontRange
  constructor
  · intro hx
    rw [List.mem_map] at hx
    obtain ⟨n, hn, rfl⟩ := hx
    rw [List.mem_range'] at hn
    obtain ⟨i, hi, rfl⟩ := hn
    exact ⟨75 + 1 * i, by omega, by omega, rfl⟩
  · rintro ⟨n, h1, h2, rfl⟩
    rw [List.mem_map]
    refine ⟨n, ?_, rfl⟩
    rw [List.mem_range']
    exact ⟨n - 75, by omega, by omega⟩

lemma fontRange_min? : fontRange.min? = some 75 := by
  have anti : Std.Antisymm (α := ℚ) (· ≤ ·) := ⟨fun h h2 => le_antisymm h h2⟩
  rw [List.min?_eq_some_iff (fun _ => le_refl _) (fun a b => min_choice a b)
      (fun _ _ _ => le_min_iff)]
  constructor
  · exact (mem_fontRange _).mpr ⟨75, le_refl _, by omega, by norm_num⟩
  · intro b hb
    obtain ⟨n, h1, _, rfl⟩ := (mem_fontRange b).mp hb
    exact_mod_cast h1

lemma fontRange_max? : fontRange.max? = some 350 := by
  have anti : Std.Antisymm (α := ℚ) (· ≤ ·) := ⟨fun h h2 => le_antisymm h h2⟩
  rw [List.max?_eq_some_iff (fun _ => le_refl _) (fun a b => max_choice a b)
      (fun _ _ _ => max_le_iff)]
  constructor
  · exact (mem_fontRange _).mpr ⟨350, by omega, by omega, by norm_num⟩
  · intro b hb
    obtain ⟨n, _, h2, rfl⟩ := (mem_fontRange b).mp hb
    have h3 : n ≤ 350 := by omega
    exact_mod_cast h3

lemma min?_eq_of_perm {l l2 : List ℚ} (p : l.Perm l2) : l.min? = l2.min? := by
  have anti : Std.Antisymm (α := ℚ) (· ≤ ·) := ⟨fun h h2 => le_antisymm h h2⟩
  cases hl : l2.min? with
  | none =>
    rw [List.min?_eq_none_iff] at hl ⊢
    rw [hl] at p
    exact p.eq_nil
  | some a =>
    rw [List.min?_eq_some_iff (fun _ => le_refl _) (fun a b => min_choice a b)
        (fun _ _ _ => le_min_iff)] at hl ⊢
    exact ⟨p.mem_iff.mpr hl.1, fun b hb => hl.2 b (p.subset hb)⟩

lemma max?_eq_of_perm {l l2 : List ℚ} (p : l.Perm l2) : l.max? = l2.max? := by
  have anti : Std.Antisymm (α := ℚ) (· ≤ ·) := ⟨fun h h2 => le_antisymm h h2⟩
  cases hl : l2.max? with
  | none =>
    rw [List.max?_eq_none_iff] at hl ⊢
    rw [hl] at p
    exact p.eq_nil
  | some a =>
    rw [List.max?_eq_some_iff (fun _ => le_refl _) (fun a b => max_choice a b)
        (fun _ _ _ => max_le_iff)] at hl ⊢
    exact ⟨p.mem_iff.mpr hl.1, fun b hb => hl.2 b (p.subset hb)⟩

lemma rescale_eq (r1 r2 : List ℚ) (a b c d : ℚ)
    (h1 : r1.min? = some a) (h2 : r1.max? = some b)
    (h3 : r2.min? = some c) (h4 : r2.max? = some d) :
    rescale r1 r2 = some (fun value =>
      if b - a = 0 then none
      else some ((((value - a) * (d - c)) / (b - a)) + c)) := by
  unfold rescale
  rw [h1, h2, h3, h4]

lemma rescale_nil (r2 : List ℚ) : rescale [] r2 = none := rfl

/-- If the (filtered) frequency list has extrema `a` and `b`, `visualize`
reduces to `renderTerms` with the concrete affine size function. -/
lemma visualize_eq_renderTerms (fd : List (Term × ℚ)) (tags? : Option (List String))
    (a b : ℚ)
    (hmin : ((filtered fd tags?).map Prod.snd).min? = some a)
    (hmax : ((filtered fd tags?).map Prod.snd).max? = some b) :
    visualize fd tags? = renderTerms (fun value =>
      if b - a = 0 then none
      else some ((((value - a) * ((350 : ℚ) - 75)) / (b - a)) + 75)) (filtered fd tags?) := by
  simp only [visualize]
  have hperm := List.mergeSort_perm ((filtered fd tags?).map Prod.snd)
      (fun a b => decide (a ≤ b))
  rw [rescale_eq _ _ a b 75 350
      ((min?_eq_of_perm hperm).trans hmin)
      ((max?_eq_of_perm hperm).trans hmax)
      fontRange_min? fontRange_max?]

lemma visualize_eq_none (fd : List (Term × ℚ)) (tags? : Option (List String))
    (h : filtered fd tags? = []) : visualize fd tags? = none := by
  simp only [visualize, h, List.map_nil, List.mergeSort_nil, rescale_nil]

end Helpers

lemma visualize_dist5_eval : visualize dist5 none = some
    [⟨"#800080", "run", "VERB", 10, 350⟩,
     ⟨"#FFA500", "dog", "NOUN", 2, 75⟩,
     ⟨"#32CD32", "quickly", "ADV", 2, 75⟩] := by
  rw [visualize_eq_renderTerms dist5 none 2 10 (by decide) (by decide)]
  norm_num [renderTerms, colorDict, COLOR, List.lookup, dist5, filtered]
  decide

/-- Every element emitted by `renderTerms` succeeds when each term has a
color and each frequency has a size; the output has one descriptor per
input pair, whose `pos` is the pos of some input pair. -/
lemma renderTerms_some (f : ℚ → Option ℚ) (l : List (Term × ℚ))
    (hc : ∀ tf ∈ l, (colorDict.lookup tf.1.pos).isSome = true)
    (hf : ∀ tf ∈ l, (f tf.2).isSome = true) :
    ∃ ds, renderTerms f l = some ds ∧ ds.length = l.length ∧
      ∀ d_ ∈ ds, ∃ tf ∈ l, d_.pos = tf.1.pos := by
  induction l with
  | nil => exact ⟨[], rfl, rfl, by simp⟩
  | cons tf rest ih =>
    obtain ⟨t, fq⟩ := tf
    obtain ⟨c, hc1⟩ := Option.isSome_iff_exists.mp (hc (t, fq) (List.mem_cons_self _ _))
    obtain ⟨s, hs1⟩ := Option.isSome_iff_exists.mp (hf (t, fq) (List.mem_cons_self _ _))
    obtain ⟨ds, hds, hlen, hmem⟩ :=
      ih (fun x hx => hc x (List.mem_cons_of_mem _ hx))
         (fun x hx => hf x (List.mem_cons_of_mem _ hx))
    refine ⟨⟨c, t.lemma', t.pos, fq, s⟩ :: ds, ?_, by simp [hlen], ?_⟩
    · unfold renderTerms
      rw [hc1, hs1, hds]
    · intro d_ hd
      rcases List.mem_cons.mp hd with h | h
      · exact ⟨(t, fq), List.mem_cons_self _ _, by rw [h]⟩
      · obtain ⟨tf2, htf2, he⟩ := hmem d_ h
        exact ⟨tf2, List.mem_cons_of_mem _ htf2, he⟩

/-- If the size function fails on the head frequency, the whole
comprehension is the raised-exception outcome. -/
lemma renderTerms_none_of_size_none (f : ℚ → Option ℚ) (t : Term) (fq : ℚ)
    (rest : List (Term × ℚ)) (h : f fq = none) :
    renderTerms f ((t, fq) :: rest) = none := by
  unfold renderTerms
  rw [h]
  cases colorDict.lookup t.pos <;> cases renderTerms f rest <;> rfl

/-- C1: for non-empty source and target collections whose source extrema
differ, the function returned by `rescale` is everywhere the affine map
`((value - sourceMin) * (targetMax - targetMin)) / (sourceMax - sourceMin)
+ targetMin`, with no clamping outside the source interval. -/
theorem rescale_formula (r1 r2 : List ℚ) (a b c d : ℚ)
    (h1 : r1.min? = some a) (h2 : r1.max? = some b)
    (h3 : r2.min? = some c) (h4 : r2.max? = some d) (hab : a ≠ b) :
    ∃ f, rescale r1 r2 = some f ∧
      ∀ value : ℚ, f value = some ((((value - a) * (d - c)) / (b - a)) + c) := by
  refine ⟨_, rescale_eq r1 r2 a b c d h1 h2 h3 h4, fun value => ?_⟩
  simp only [if_neg (sub_ne_zero_of_ne (Ne.symm hab))]

/-- Witness for C1 at source `[1, 3]`, target `[10, 20]`. -/
theorem rescale_formula_witness :
    ∃ f, rescale [1, 3] [10, 20] = some f ∧
      ∀ value : ℚ, f value = some ((((value - 1) * ((20 : ℚ) - 10)) / (3 - 1)) + 10) :=
  rescale_formula [1, 3] [10, 20] 1 3 10 20 (by decide) (by decide) (by decide)
    (by decide) (by decide)

/-- C6: the mapper sends the source minimum exactly to the target minimum
and the source maximum exactly to the target maximum. -/
theorem rescale_endpoints (r1 r2 : List ℚ) (a b c d : ℚ)
    (h1 : r1.min? = some a) (h2 : r1.max? = some b)
    (h3 : r2.min? = some c) (h4 : r2.max? = some d) (hab : a ≠ b) :
    ∃ f, rescale r1 r2 = some f ∧ f a = some c ∧ f b = some d := by
  have hba : b - a ≠ 0 := sub_ne_zero_of_ne (Ne.symm hab)
  refine ⟨_, rescale_eq r1 r2 a b c d h1 h2 h3 h4, ?_, ?_⟩
  · simp only [if_neg hba]
    norm_num
  · simp only [if_neg hba]
    rw [mul_div_cancel_left₀ _ hba]
    norm_num

/-- Witness for C6 at source `[1, 3]`, target `[10, 20]`. -/
theorem rescale_endpoints_witness :
    ∃ f, rescale [1, 3] [10, 20] = some f ∧ f 1 = some 10 ∧ f 3 = some 20 :=
  rescale_endpoints [1, 3] [10, 20] 1 3 10 20 (by decide) (by decide) (by decide)
    (by decide) (by decide)

/-- C7: when the source extrema satisfy `a < b` and the target extrema
satisfy `c < d`, the mapper is non-decreasing. -/
theorem rescale_monotone (r1 r2 : List ℚ) (a b c d : ℚ)
    (h1 : r1.min? = some a) (h2 : r1.max? = some b)
    (h3 : r2.min? = some c) (h4 : r2.max? = some d)
    (hab : a < b) (hcd : c < d) :
    ∃ f, rescale r1 r2 = some f ∧
      ∀ x1 x2 y1 y2 : ℚ, x1 < x2 → f x1 = some y1 → f x2 = some y2 → y1 ≤ y2 := by
  have hba : b - a ≠ 0 := sub_ne_zero_of_ne (Ne.symm (ne_of_lt hab))
  have hbapos : (0 : ℚ) < b - a := sub_pos.mpr hab
  refine ⟨_, rescale_eq r1 r2 a b c d h1 h2 h3 h4, ?_⟩
  intro x1 x2 y1 y2 hx hy1 hy2
  simp only [if_neg hba, Option.some.injEq] at hy1 hy2
  rw [← hy1, ← hy2]
  have key : (x1 - a) * (d - c) ≤ (x2 - a) * (d - c) :=
    mul_le_mul_of_nonneg_right (by linarith) (by linarith)
  rw [div_eq_mul_inv, div_eq_mul_inv]
  have hinv : (0 : ℚ) ≤ (b - a)⁻¹ := inv_nonneg.mpr (le_of_lt hbapos)
  exact add_le_add_right (mul_le_mul_of_nonneg_right key hinv) c

/-- Witness for C7 at source `[1, 3]`, target `[10, 20]`. -/
theorem rescale_monotone_witness :
    ∃ f, rescale [1, 3] [10, 20] = some f ∧
      ∀ x1 x2 y1 y2 : ℚ, x1 < x2 → f x1 = some y1 → f x2 = some y2 → y1 ≤ y2 :=
  rescale_monotone [1, 3] [10, 20] 1 3 10 20 (by decide) (by decide) (by decide)
    (by decide) (by decide) (by decide)

/-- C2 counterexample: an explicitly empty whitelist does NOT produce the
same result as no whitelist on the concrete distribution `dist5`: the
empty set filters out every term (the source tests `is not None`), after
which `min` of the empty frequency list raises, while no filter renders
all three terms. -/
theorem visualize_empty_filter_counterexample :
    visualize dist5 (some []) ≠ visualize dist5 none := by
  rw [visualize_eq_none dist5 (some []) (by decide), visualize_dist5_eval]
  simp

/-- C2 amended: an explicitly empty allowed-category set is an active
filter that removes every term, so `visualize` with an empty whitelist
always takes the error outcome (none), for every distribution; it does not
behave like the no-filter call. -/
theorem visualize_empty_filter_eq_none (fd : List (Term × ℚ)) :
    visualize fd (some []) = none := by
  apply visualize_eq_none
  simp [filtered]

/-- C3 (code behavior at the failing input): on a degenerate source range
(every sampled frequency equal, e.g. all 5) `rescale` construction
succeeds, but applying the returned mapper performs an unguarded division
by zero (`ZeroDivisionError`, modelled as `none`), and a one-term
distribution of frequency 5 makes `visualize` crash rather than fall back. -/
theorem rescale_degenerate_divzero :
    ∃ f, rescale [5, 5, 5] fontRange = some f ∧ f 5 = none ∧
      visualize [(⟨"every", "NOUN"⟩, 5)] none = none := by
  refine ⟨_, rescale_eq [5, 5, 5] fontRange 5 5 75 350 (by decide) (by decide)
    fontRange_min? fontRange_max?, by norm_num, ?_⟩
  rw [visualize_eq_renderTerms _ none 5 5 (by decide) (by decide)]
  exact renderTerms_none_of_size_none _ _ _ _ (by norm_num)

/-- C4 (code behavior at the failing input): rendering the empty
distribution does not return an empty sequence; `min` of the empty
frequency list raises `ValueError` (modelled as `none`). -/
theorem visualize_empty_dist_eq_none :
    visualize ([] : List (Term × ℚ)) none = none :=
  visualize_eq_none [] none rfl

/-- C5: on `{run/VERB: 10, dog/NOUN: 2, quickly/ADV: 2}` with no filter,
rendering yields exactly 3 descriptors; the VERB term (max frequency 10)
has size exactly 350 and both frequency-2 terms have size exactly 75. -/
theorem visualize_concrete_scenario :
    ∃ l, visualize dist5 none = some l ∧ l.length = 3 ∧
      ∀ d_ ∈ l, (d_.pos = "VERB" → d_.size = 350) ∧ (d_.freq = 2 → d_.size = 75) :=
  ⟨_, visualize_dist5_eval, by decide, by decide⟩

/-- C8 counterexample: with whitelist `{NOUN}` on a distribution holding a
single NOUN entry, the number of NOUN entries is 1, yet `visualize` emits
no descriptor at all: the filtered frequencies are all equal, so the size
mapper divides by zero and the render crashes. -/
theorem visualize_filter_counterexample :
    visualize [(⟨"dog", "NOUN"⟩, (2 : ℚ))] (some ["NOUN"]) = none ∧
      (([(⟨"dog", "NOUN"⟩, (2 : ℚ))] : List (Term × ℚ)).filter
        (fun tf => (["NOUN"]).contains tf.1.pos)).length = 1 := by
  constructor
  · rw [visualize_eq_renderTerms _ _ 2 2 (by decide) (by decide)]
    have hf : filtered [(⟨"dog", "NOUN"⟩, (2 : ℚ))] (some ["NOUN"]) =
        [(⟨"dog", "NOUN"⟩, (2 : ℚ))] := by decide
    rw [hf]
    exact renderTerms_none_of_size_none _ _ _ _ (by norm_num)
  · decide

/-- C8 amended: for a whitelist `S` whose surviving entries have at least
two distinct frequency values and all styled categories, `visualize` with
filter `S` emits exactly one descriptor per surviving entry and every
emitted descriptor carries a category that is a member of `S`. -/
theorem visualize_filter_restricts (fd fd1 : List (Term × ℚ)) (S : List String) (a b : ℚ)
    (hfd1 : fd1 = fd.filter (fun tf => S.contains tf.1.pos))
    (hmin : (fd1.map Prod.snd).min? = some a)
    (hmax : (fd1.map Prod.snd).max? = some b)
    (hab : a ≠ b)
    (hcolor : ∀ tf ∈ fd1, (colorDict.lookup tf.1.pos).isSome = true) :
    ∃ l, visualize fd (some S) = some l ∧ l.length = fd1.length ∧
      ∀ d_ ∈ l, S.contains d_.pos = true := by
  have hba : b - a ≠ 0 := sub_ne_zero_of_ne (Ne.symm hab)
  have hfe : filtered fd (some S) = fd1 := hfd1.symm
  rw [visualize_eq_renderTerms fd (some S) a b (by rw [hfe]; exact hmin)
    (by rw [hfe]; exact hmax), hfe]
  obtain ⟨ds, hds, hlen, hmem⟩ := renderTerms_some (fun value =>
      if b - a = 0 then none
      else some ((((value - a) * ((350 : ℚ) - 75)) / (b - a)) + 75)) fd1 hcolor
    (fun tf _ => by
      show (if b - a = 0 then (none : Option ℚ)
        else some ((((tf.2 - a) * ((350 : ℚ) - 75)) / (b - a)) + 75)).isSome = true
      rw [if_neg hba]
      rfl)
  refine ⟨ds, hds, hlen, ?_⟩
  intro d_ hd
  obtain ⟨tf, htf, he⟩ := hmem d_ hd
  rw [he]
  rw [hfd1] at htf
  exact (List.mem_filter.mp htf).2

/-- Witness for C8 with `dist5` and whitelist `[VERB, NOUN]`. -/
theorem visualize_filter_restricts_witness :
    ∃ l, visualize dist5 (some ["VERB", "NOUN"]) = some l ∧
      l.length = ([(⟨"run", "VERB"⟩, 10), (⟨"dog", "NOUN"⟩, 2)] : List (Term × ℚ)).length ∧
      ∀ d_ ∈ l, (["VERB", "NOUN"]).contains d_.pos = true :=
  visualize_filter_restricts dist5 [(⟨"run", "VERB"⟩, 10), (⟨"dog", "NOUN"⟩, 2)]
    ["VERB", "NOUN"] 2 10 (by decide) (by decide) (by decide) (by decide) (by decide)

/-- C9: the color key renders one row per entry of the static `COLOR`
table, covering all 17 categories of the closed tag set; it is a constant
of the static table, independent of any frequency distribution. -/
theorem color_key_covers_all :
    color_key.map KeyRow.tag = closedTags ∧ color_key.length = 17 ∧
      ∀ pc ∈ COLOR, (⟨pc.1.tag, pc.1.name, pc.2.name, pc.2.hex⟩ : KeyRow) ∈ color_key :=
  ⟨by decide, by decide, fun pc hpc => List.mem_map_of_mem _ hpc⟩

/-- C10: the static `COLOR` table styles each of the 17 closed-set POS
tags, so the per-term color lookup of `visualize` succeeds for every term
whose tag is drawn from the closed set: the missing-key branch is
unreachable under that precondition. -/
theorem colorDict_total :
    closedTags.length = 17 ∧
      ∀ tag ∈ closedTags, (colorDict.lookup tag).isSome = true :=
  ⟨by decide, by decide⟩

/-- Witness for C10 at the NOUN tag. -/
theorem colorDict_total_witness : (colorDict.lookup ("NOUN")).isSome = true :=
  colorDict_total.2 ("NOUN") (by decide)

end Visualize
